import Mathlib

/-!
# AlphaLens — verification of the scoring/recommendation core and the frontend glue

Shallow embedding of the AlphaLens repository.  The frontend TypeScript code
(`frontend/app/analyze/page.tsx`, `frontend/lib/api.ts`) is embedded directly
from the source.  The backend scoring pipeline (indicator engine, signal
normalizer, scoring engine, allocator/ranker, provider gateway, orchestrator)
is not present in the repository sources — only its documentation and tests
are — so those components are modelled from the specification, as indicated
on each definition.  Real-number arithmetic is modelled with `ℚ`.
-/

namespace AlphaLens

/-- Clamp `x` into the interval `[lo, hi]`. -/
def clampQ (lo hi x : ℚ) : ℚ := max lo (min hi x)

theorem clampQ_le {lo hi x : ℚ} (h : lo ≤ hi) : clampQ lo hi x ≤ hi := by
  unfold clampQ
  exact max_le h (min_le_left _ _)

theorem le_clampQ {lo hi x : ℚ} : lo ≤ clampQ lo hi x := le_max_left _ _

theorem clampQ_eq_self {lo hi x : ℚ} (h0 : lo ≤ x) (h1 : x ≤ hi) :
    clampQ lo hi x = x := by
  unfold clampQ
  rw [min_eq_right h1, max_eq_right h0]

/-! ## Frontend: ticker parsing and submission (`frontend/app/analyze/page.tsx`) -/

/-- Separator class of the JavaScript regex `/[,\s]+/` used by `parseTickers`. -/
def isSepChar (c : Char) : Bool := c == ',' || c.isWhitespace

/-- The JavaScript test `/^[A-Z]+$/.test t`: non-empty and only uppercase
letters A–Z. -/
def upperAZTest (t : String) : Bool :=
  !t.isEmpty && t.data.all (fun c => decide ('A' ≤ c) && decide (c ≤ 'Z'))

/-- JavaScript `String.prototype.trim` on the character list of a token. -/
def trimChars (cs : List Char) : List Char :=
  ((cs.dropWhile Char.isWhitespace).reverse.dropWhile Char.isWhitespace).reverse

/-- `parseTickers` from `frontend/app/analyze/page.tsx`: upper-case the input,
split on commas/whitespace, trim each token, and keep tokens of length 1–5
consisting of uppercase letters.  JavaScript strings are modelled by their
character lists (`toUpperCase`/`split`/`trim` become the corresponding
character-list operations; splitting at each separator character differs from
the `/[,\s]+/` run-based split only in empty tokens, which the final filter
removes). -/
def parseTickers (input : String) : List String :=
  ((((input.data.map Char.toUpper).splitOnP isSepChar).map
      (fun cs => String.mk (trimChars cs))).filter
    (fun t => decide (0 < t.length) && decide (t.length ≤ 5) && upperAZTest t))

/-- `maxTickers` in `AnalyzeContent`: 5 for the pro plan, 3 otherwise. -/
def maxTickers (isPro : Bool) : ℕ := if isPro then 5 else 3

/-- `isValidInput` in `AnalyzeContent`. -/
def isValidInput (input : String) (isPro : Bool) : Bool :=
  let tickers := parseTickers input
  decide (0 < tickers.length) && decide (tickers.length ≤ maxTickers isPro)

/-- The request body `handleSubmit` passes to `analyzeStocks`. -/
structure AnalyzeRequest where
  tickers : List String
  horizon : String
  deriving Repr, DecidableEq

/-- `handleSubmit` from `frontend/app/analyze/page.tsx`: returns early (no
request) unless the parsed tickers are valid for the plan and an id token is
present; otherwise submits the parsed tickers and the selected horizon. -/
def handleSubmit (input : String) (isPro : Bool) (horizon : String)
    (idToken : Option String) : Option AnalyzeRequest :=
  if isValidInput input isPro && idToken.isSome then
    some ⟨parseTickers input, horizon⟩
  else
    none

/-! ## Frontend: horizon selector state (`frontend/app/analyze/page.tsx`) -/

/-- One entry of the `HORIZONS` constant. -/
structure HorizonOption where
  value : String
  label : String
  proOnly : Bool
  deriving Repr, DecidableEq

/-- The `HORIZONS` constant from `frontend/app/analyze/page.tsx`. -/
def HORIZONS : List HorizonOption :=
  [⟨"1W", "1 Week", true⟩,
   ⟨"1M", "1 Month", false⟩,
   ⟨"3M", "3 Months", true⟩,
   ⟨"6M", "6 Months", true⟩,
   ⟨"1Y", "1 Year", true⟩]

/-- Initial state of `useState<Horizon>("1M")`. -/
def initialHorizon : String := "1M"

/-- `isDisabled` for a horizon button: `h.proOnly && !isPro`. -/
def horizonDisabled (h : HorizonOption) (isPro : Bool) : Bool :=
  h.proOnly && !isPro

/-- The click handler `() => !isDisabled && setHorizon(h.value)`: a click on a
disabled button leaves the state unchanged. -/
def clickHorizon (isPro : Bool) (cur : String) (h : HorizonOption) : String :=
  if horizonDisabled h isPro then cur else h.value

/-- Horizon state after a sequence of button clicks, starting from the
initial state. -/
def horizonAfter (isPro : Bool) (clicks : List HorizonOption) : String :=
  clicks.foldl (clickHorizon isPro) initialHorizon

/-! ## Frontend: API client (`frontend/lib/api.ts`) -/

/-- The JSON body of an HTTP response, as far as `apiRequest` inspects it:
only the optional `detail` field matters for error construction. -/
structure JsonBody where
  detail : Option String
  deriving Repr, DecidableEq

/-- An HTTP response as seen by `apiRequest`: `ok` flag, status code, and the
body, which is `none` when `response.json()` would reject (unparseable). -/
structure HttpResponse where
  ok : Bool
  status : ℕ
  body : Option JsonBody
  deriving Repr, DecidableEq

/-- The two ways `apiRequest` can throw: an `ApiError` (status + message), or
the SyntaxError from `response.json()` on a success response whose body does
not parse. -/
inductive JsFail where
  | api (status : ℕ) (message : String)
  | jsonSyntaxError
  deriving Repr, DecidableEq

/-- The fallback message `` `Request failed with status ${response.status}` ``. -/
def defaultMsg (status : ℕ) : String :=
  "Request failed with status " ++ toString status

/-- The message of the `ApiError` thrown on a non-ok response:
`errorData.detail || defaultMsg`, where
`errorData = await response.json().catch(() => ({}))`.  An absent body
(parse failure) yields `{}`; a present but empty-string `detail` is falsy in
JavaScript, so the fallback message is used. -/
def errorMessageOf (r : HttpResponse) : String :=
  let errorData : JsonBody := match r.body with
    | some b => b
    | none => ⟨none⟩
  match errorData.detail with
  | some d => if d.isEmpty then defaultMsg r.status else d
  | none => defaultMsg r.status

/-- `apiRequest` from `frontend/lib/api.ts`: returns the parsed JSON body on
`response.ok`, throws `ApiError(status, message)` otherwise; on an ok response
whose body does not parse, `response.json()` rejects. -/
def apiRequest (r : HttpResponse) : Except JsFail JsonBody :=
  if r.ok then
    match r.body with
    | some b => Except.ok b
    | none => Except.error JsFail.jsonSyntaxError
  else
    Except.error (JsFail.api r.status (errorMessageOf r))

/-! ## Backend data model

Modelled from the spec: the backend package (`domain/`, `services/`,
`adapters/`) is not among the repository sources, only its documentation; the
record shapes below follow §3 of the spec and the TypeScript mirror types in
`frontend/lib/api.ts`. -/

/-- One bar of a price series: (date, open, high, low, close, volume). -/
structure PriceBar where
  date : String
  openP : ℚ
  high : ℚ
  low : ℚ
  close : ℚ
  volume : ℚ
  deriving Repr, DecidableEq

/-- Modelled from the spec: a chronological price/volume series (§3). -/
abbrev PriceSeries := List PriceBar

/-- Technical indicators per ticker (§3, mirrored in `frontend/lib/api.ts`). -/
structure TechnicalIndicators where
  rsi : ℚ
  macd : ℚ
  macd_signal : ℚ
  macd_histogram : ℚ
  sma_50 : ℚ
  sma_200 : ℚ
  current_price : ℚ
  volume_trend : ℚ
  deriving Repr, DecidableEq

/-- Fundamental metrics; any field may be absent (§3). -/
structure FundamentalMetrics where
  pe_ratio : Option ℚ
  revenue_growth : Option ℚ
  profit_margin : Option ℚ
  debt_to_equity : Option ℚ
  market_cap : Option ℚ
  deriving Repr, DecidableEq

/-- Sentiment data per ticker: aggregate score in [-1,1] and article counts. -/
structure SentimentData where
  score : ℚ
  article_count : ℕ
  positive_count : ℕ
  negative_count : ℕ
  neutral_count : ℕ
  deriving Repr, DecidableEq

/-- A news article summary (mirrored in `frontend/lib/api.ts`). -/
structure NewsArticleSummary where
  title : String
  source : String
  published_at : String
  url : String
  sentiment_label : Option String
  deriving Repr, DecidableEq

/-- What the news provider returns: articles plus derived sentiment (§6). -/
structure NewsData where
  articles : List NewsArticleSummary
  sentiment : SentimentData
  deriving Repr, DecidableEq

/-! ## Indicator Engine

Modelled from the spec (§4.1): pure functions from a price series to
technical indicators. -/

/-- Day-over-day close changes: `change i = close (i+1) - close i`. -/
def priceChanges (closes : List ℚ) : List ℚ :=
  List.zipWith (fun a b => b - a) closes closes.tail

/-- Gain part of a change. -/
def gainOf (c : ℚ) : ℚ := max c 0

/-- Loss part of a change (as a non-negative magnitude). -/
def lossOf (c : ℚ) : ℚ := max (-c) 0

/-- Modelled from the spec: Wilder smoothing — seed with the simple average
of the first `w` values, then fold `avg ← (avg·(w-1) + x)/w` over the rest. -/
def wilderAvg (w : ℕ) (xs : List ℚ) : ℚ :=
  (xs.drop w).foldl (fun a x => (a * ((w : ℚ) - 1) + x) / (w : ℚ))
    ((xs.take w).sum / (w : ℚ))

/-- Wilder-smoothed average gain over the trailing window. -/
def avgGain (w : ℕ) (closes : List ℚ) : ℚ :=
  wilderAvg w ((priceChanges closes).map gainOf)

/-- Wilder-smoothed average loss over the trailing window. -/
def avgLoss (w : ℕ) (closes : List ℚ) : ℚ :=
  wilderAvg w ((priceChanges closes).map lossOf)

/-- Default RSI window (14-period). -/
def rsiWindow : ℕ := 14

/-- Modelled from the spec (§4.1): RSI with Wilder smoothing, clamped to
[0,100]; 100 when the average loss is 0 (all gains); 50 when the series has
fewer than `window + 1` points (insufficient history, explicit policy). -/
def rsi (closes : List ℚ) : ℚ :=
  if closes.length < rsiWindow + 1 then 50
  else if avgLoss rsiWindow closes = 0 then 100
  else clampQ 0 100
    (100 - 100 / (1 + avgGain rsiWindow closes / avgLoss rsiWindow closes))

/-- One EMA step with smoothing factor `k`. -/
def emaStep (k prev x : ℚ) : ℚ := k * x + (1 - k) * prev

/-- EMA series seeded at the first value, `k = 2/(period+1)`. -/
def emaSeries (period : ℕ) (xs : List ℚ) : List ℚ :=
  match xs with
  | [] => []
  | x :: rest => List.scanl (emaStep (2 / ((period : ℚ) + 1))) x rest

/-- Modelled from the spec (§4.1): MACD line (EMA12 − EMA26), signal
(EMA9 of the line), histogram (line − signal); zeros when fewer than
`slow + signal` points are available, rather than raising. -/
def macdTriple (closes : List ℚ) : ℚ × ℚ × ℚ :=
  if closes.length < 26 + 9 then (0, 0, 0)
  else
    let line := List.zipWith (fun a b => a - b) (emaSeries 12 closes) (emaSeries 26 closes)
    let m := (emaSeries 12 closes).getLastD 0 - (emaSeries 26 closes).getLastD 0
    let s := (emaSeries 9 line).getLastD 0
    (m, s, m - s)

/-- Modelled from the spec (§4.1): simple trailing average over the last `n`
points, degrading to the available shorter window. -/
def smaOver (n : ℕ) (closes : List ℚ) : ℚ :=
  let wnd := closes.drop (closes.length - n)
  if wnd.length = 0 then 0 else wnd.sum / (wnd.length : ℚ)

/-- Modelled from the spec (§4.1): recent average volume relative to the
whole-series baseline average; positive means increasing. -/
def volumeTrendOf (volumes : List ℚ) : ℚ :=
  let recent := volumes.drop (volumes.length - 10)
  let rAvg := if recent.length = 0 then 0 else recent.sum / (recent.length : ℚ)
  let bAvg := if volumes.length = 0 then 0 else volumes.sum / (volumes.length : ℚ)
  if bAvg = 0 then 0 else rAvg / bAvg - 1

/-- Modelled from the spec (§4.1): assemble all technical indicators from a
price series. -/
def computeIndicators (series : PriceSeries) : TechnicalIndicators :=
  let closes := series.map (fun b => b.close)
  let (m, sg, h) := macdTriple closes
  { rsi := rsi closes
    macd := m
    macd_signal := sg
    macd_histogram := h
    sma_50 := smaOver 50 closes
    sma_200 := smaOver 200 closes
    current_price := closes.getLastD 0
    volume_trend := volumeTrendOf (series.map (fun b => b.volume)) }

/-! ## Signal Normalizer

Modelled from the spec (§4.2): fundamental and sentiment sub-scores, each
clamped hard to [0,100]; missing fundamental fields are excluded and the
remaining weights re-normalized (here: equal weights, so the mean of the
present component scores). -/

/-- P/E component: lower is better, clamped. -/
def peScore (pe : ℚ) : ℚ := clampQ 0 100 (100 - 2 * pe)

/-- Revenue-growth component: higher is better, clamped. -/
def growthScore (g : ℚ) : ℚ := clampQ 0 100 (50 + 250 * g)

/-- Profit-margin component: higher is better, clamped. -/
def marginScore (m : ℚ) : ℚ := clampQ 0 100 (200 * m)

/-- Debt/equity component: lower is better, clamped. -/
def debtEquityScore (de : ℚ) : ℚ := clampQ 0 100 (100 - 40 * de)

/-- Modelled from the spec (§4.2): weighted 0–100 fundamental composite;
missing fields are excluded from the average rather than treated as zero;
neutral 50 when no field is present. -/
def fundamentalScore (fm : FundamentalMetrics) : ℚ :=
  let comps := [fm.pe_ratio.map peScore, fm.revenue_growth.map growthScore,
    fm.profit_margin.map marginScore, fm.debt_to_equity.map debtEquityScore]
  let present := comps.filterMap id
  if present.length = 0 then 50
  else clampQ 0 100 (present.sum / (present.length : ℚ))

/-- Modelled from the spec (§4.2): sentiment 0–100 score centering 0 at 50,
with very low article counts pulling toward neutral 50, clamped. -/
def sentimentScore (sd : SentimentData) : ℚ :=
  let confidence : ℚ := min (sd.article_count : ℚ) 10 / 10
  clampQ 0 100 (50 + 50 * sd.score * confidence)

/-! ## Scoring Engine

Modelled from the spec (§4.3): named weight constants with the exact
contractual values, composite clamped to [0,100]. -/

/-- Technical weight of the composite: exactly 0.40 (product contract). -/
def W_TECHNICAL : ℚ := 0.40

/-- Fundamental weight of the composite: exactly 0.30 (product contract). -/
def W_FUNDAMENTAL : ℚ := 0.30

/-- Sentiment weight of the composite: exactly 0.30 (product contract). -/
def W_SENTIMENT : ℚ := 0.30

theorem weights_sum_to_one : W_TECHNICAL + W_FUNDAMENTAL + W_SENTIMENT = 1 := by
  norm_num [W_TECHNICAL, W_FUNDAMENTAL, W_SENTIMENT]

/-- Modelled from the spec (§4.3): composite score
`clamp(0.40·t + 0.30·f + 0.30·s, 0, 100)`. -/
def compositeScore (t f s : ℚ) : ℚ :=
  clampQ 0 100 (W_TECHNICAL * t + W_FUNDAMENTAL * f + W_SENTIMENT * s)

/-- Modelled from the spec (§4.3): the documented technical sub-formula —
RSI position, MACD crossover direction, price-vs-SMA relationship and volume
trend, each a bounded sub-term, summed and clamped to [0,100]. -/
def technicalScore (ind : TechnicalIndicators) : ℚ :=
  let rsiTerm : ℚ := if ind.rsi ≤ 30 then 25 else if 70 ≤ ind.rsi then 5 else 15
  let macdTerm : ℚ := if 0 < ind.macd_histogram then 25 else 10
  let smaTerm : ℚ := if ind.sma_50 < ind.current_price then 25 else 10
  let volTerm : ℚ := if 0 < ind.volume_trend then 25 else 10
  clampQ 0 100 (rsiTerm + macdTerm + smaTerm + volTerm)

/-! ## Allocator / Ranker

Modelled from the spec (§4.4): sort descending by composite score with
alphabetical tie-break, rank 1 for the highest, allocation proportional to
score with equal split when all scores are zero. -/

/-- A ticker with its three sub-scores and composite score, before ranking. -/
structure ScoredTicker where
  ticker : String
  technical : ℚ
  fundamental : ℚ
  sentiment : ℚ
  composite : ℚ
  deriving Repr, DecidableEq

/-- Sort order of the ranker: higher composite first; on equal composite,
alphabetically smaller ticker first (deterministic tie-break). -/
def rankLe (a b : ScoredTicker) : Prop :=
  b.composite < a.composite ∨ (a.composite = b.composite ∧ a.ticker ≤ b.ticker)

instance : DecidableRel rankLe := fun a b => by
  unfold rankLe; infer_instance

instance : IsTotal ScoredTicker rankLe where
  total a b := by
    unfold rankLe
    rcases lt_trichotomy a.composite b.composite with h | h | h
    · exact Or.inr (Or.inl h)
    · rcases le_total a.ticker b.ticker with ht | ht
      · exact Or.inl (Or.inr ⟨h, ht⟩)
      · exact Or.inr (Or.inr ⟨h.symm, ht⟩)
    · exact Or.inl (Or.inl h)

instance : IsTrans ScoredTicker rankLe where
  trans a b c hab hbc := by
    unfold rankLe at *
    rcases hab with h1 | ⟨he1, ht1⟩
    · rcases hbc with h2 | ⟨he2, _⟩
      · exact Or.inl (h2.trans h1)
      · exact Or.inl (he2 ▸ h1)
    · rcases hbc with h2 | ⟨he2, ht2⟩
      · exact Or.inl (he1 ▸ h2)
      · exact Or.inr ⟨he1.trans he2, ht1.trans ht2⟩

/-- Rank step of the pipeline: insertion sort under `rankLe`. -/
def sortRows (rows : List ScoredTicker) : List ScoredTicker :=
  rows.insertionSort rankLe

/-- Score breakdown (mirrored in `frontend/lib/api.ts`). -/
structure ScoreBreakdown where
  technical : ℚ
  fundamental : ℚ
  sentiment : ℚ
  deriving Repr, DecidableEq

/-- A ranked, allocated per-ticker score (§3; `frontend/lib/api.ts`). -/
structure StockScore where
  ticker : String
  composite_score : ℚ
  breakdown : ScoreBreakdown
  rank : ℕ
  allocation_pct : ℚ
  deriving Repr, DecidableEq

/-- Modelled from the spec (§4.4): allocation percentage of a row, given the
total of all composite scores and the number of tickers — proportional to the
composite score, equal split `100/n` when the total is zero. -/
def allocOf (total : ℚ) (n : ℕ) (r : ScoredTicker) : ℚ :=
  if total = 0 then 100 / (n : ℚ) else 100 * r.composite / total

/-- Build one `StockScore` from a sorted row and its 1-based rank. -/
def mkStockScore (total : ℚ) (n : ℕ) (r : ScoredTicker) (rank : ℕ) : StockScore :=
  ⟨r.ticker, r.composite, ⟨r.technical, r.fundamental, r.sentiment⟩, rank,
    allocOf total n r⟩

/-- Attach increasing ranks, starting at `k`, down a (sorted) row list. -/
def attachRanks (f : ScoredTicker → ℕ → StockScore) :
    ℕ → List ScoredTicker → List StockScore
  | _, [] => []
  | k, r :: rs => f r k :: attachRanks f (k + 1) rs

/-- Total of the composite scores of a row list. -/
def totalComposite (rows : List ScoredTicker) : ℚ :=
  (rows.map (fun r => r.composite)).sum

/-- Modelled from the spec (§4.4): the Rank + Allocate stages — sort the
scored rows, then attach ranks 1..n and proportional (or equal-split)
allocation percentages. -/
def buildScores (rows : List ScoredTicker) : List StockScore :=
  attachRanks
    (mkStockScore (totalComposite (sortRows rows)) (sortRows rows).length) 1
    (sortRows rows)

/-! ## Provider Gateway

Modelled from the spec (§4.6): each data type is served by a real provider
that may fail with `ProviderError`, retried a bounded number of times, and a
deterministic mock fallback; the result carries an attribution naming the
concrete source.  The cache layer (§4.5) is elided: it only affects whether
the network is re-hit within the TTL window, not which source ultimately
serves the data, and no claim below concerns it. -/

/-- A provider failure: provider name, ticker, and underlying cause (§7). -/
structure ProviderError where
  provider : String
  ticker : String
  cause : String
  deriving Repr, DecidableEq

/-- Call `f` on `t`, retrying up to `retries` more times on failure; also
counts how many provider invocations were made. -/
def retryCall (f : String → Except ProviderError α) (t : String) :
    ℕ → Except ProviderError α × ℕ
  | 0 => (f t, 1)
  | n + 1 =>
    match f t with
    | Except.ok v => (Except.ok v, 1)
    | Except.error _ =>
      let p := retryCall f t n
      (p.1, p.2 + 1)

/-- One data type's sources at the gateway: the real provider (fallible,
with its attribution name), the deterministic mock fallback (total, with its
attribution name), and the retry budget. -/
structure GatewaySource (α : Type) where
  realName : String
  realFetch : String → Except ProviderError α
  mockName : String
  mockFetch : String → α
  retries : ℕ

/-- A gateway result: the payload, the name of the concrete source that
served it, and how many real-provider invocations were made. -/
structure Fetched (α : Type) where
  payload : α
  source : String
  calls : ℕ

/-- Modelled from the spec (§4.6): fetch through the gateway — on any failure
after exhausting retries, fall back to the mock provider for that data type;
the run never sees a `ProviderError`. -/
def gatewayFetch (src : GatewaySource α) (t : String) : Fetched α :=
  match retryCall src.realFetch t src.retries with
  | (Except.ok v, c) => ⟨v, src.realName, c⟩
  | (Except.error _, c) => ⟨src.mockFetch t, src.mockName, c⟩

/-! ## Recommendation Orchestrator

Modelled from the spec (§4.7, §6): validate, fetch per ticker and data type,
compute features, score, rank, allocate, assemble evidence, persist.  The
outcome also records how many real-provider invocations were made and which
results were saved to the RunStore, so that the no-partial-I/O guarantees are
visible in the model. -/

/-- Plan limits handed to `run_recommendation` (§6). -/
structure PlanLimits where
  max_stocks : ℕ
  allowed_horizons : List String
  deriving Repr, DecidableEq

/-- Validation failures (§7). -/
inductive ValidationError where
  | emptyTickers
  | tooManyTickers
  | horizonNotAllowed
  | malformedTicker
  deriving Repr, DecidableEq

/-- A well-formed ticker symbol: 1–5 uppercase letters (§3). -/
def validTicker (t : String) : Bool :=
  decide (0 < t.length) && decide (t.length ≤ 5) &&
    t.data.all (fun c => decide ('A' ≤ c) && decide (c ≤ 'Z'))

/-- Modelled from the spec (§6, §7): precondition checks, performed before
any fetch — tickers non-empty, count within the plan maximum, horizon
permitted by the plan, symbols well-formed. -/
def validate (tickers : List String) (horizon : String) (pl : PlanLimits) :
    Option ValidationError :=
  if tickers.isEmpty then some ValidationError.emptyTickers
  else if pl.max_stocks < tickers.length then some ValidationError.tooManyTickers
  else if horizon ∉ pl.allowed_horizons then some ValidationError.horizonNotAllowed
  else if tickers.all validTicker then none
  else some ValidationError.malformedTicker

/-- Provider attribution of one run (§3; `frontend/lib/api.ts`). -/
structure ProviderAttribution where
  market_data_provider : String
  market_data_fetched_at : Option String
  fundamentals_provider : String
  fundamentals_fetched_at : Option String
  news_provider : String
  news_fetched_at : Option String
  deriving Repr, DecidableEq

/-- Evidence packet per ticker (§3; `frontend/lib/api.ts`). -/
structure EvidencePacket where
  ticker : String
  technical : TechnicalIndicators
  fundamental : FundamentalMetrics
  sentiment : SentimentData
  fetched_at : String
  news_articles : List NewsArticleSummary
  attribution : ProviderAttribution
  deriving Repr, DecidableEq

/-- One run's result (§3; `frontend/lib/api.ts`). -/
structure RecommendationResult where
  run_id : String
  user_id : String
  tickers : List String
  horizon : String
  scores : List StockScore
  evidence : List EvidencePacket
  created_at : String
  deriving Repr, DecidableEq

/-- The three gateway-wrapped data providers (§6). -/
structure Providers where
  market : GatewaySource PriceSeries
  fundamentals : GatewaySource FundamentalMetrics
  news : GatewaySource NewsData

/-- Input of `run_recommendation` (§6), with the opaque run id and the run
timestamp supplied by the environment. -/
structure RunInput where
  user_id : String
  tickers : List String
  horizon : String
  plan_limits : PlanLimits
  run_id : String
  now : String

/-- Observable outcome of a run: the classified result, the number of
real-provider invocations made, and the results saved to the RunStore. -/
structure RunOutcome where
  result : Except ValidationError RecommendationResult
  providerCalls : ℕ
  savedRuns : List RecommendationResult

/-- All three data types fetched through the gateway for one ticker. -/
structure TickerBundle where
  ticker : String
  market : Fetched PriceSeries
  fundamentals : Fetched FundamentalMetrics
  news : Fetched NewsData

/-- Fetch stage for one ticker (§4.7 Fetch). -/
def fetchTicker (ps : Providers) (t : String) : TickerBundle :=
  ⟨t, gatewayFetch ps.market t, gatewayFetch ps.fundamentals t,
    gatewayFetch ps.news t⟩

/-- Real-provider invocations made for one ticker. -/
def bundleCalls (b : TickerBundle) : ℕ :=
  b.market.calls + b.fundamentals.calls + b.news.calls

/-- ComputeFeatures + Score stages for one ticker (§4.1–§4.3). -/
def scoreBundle (b : TickerBundle) : ScoredTicker :=
  let ind := computeIndicators b.market.payload
  let t := technicalScore ind
  let f := fundamentalScore b.fundamentals.payload
  let s := sentimentScore b.news.payload.sentiment
  ⟨b.ticker, t, f, s, compositeScore t f s⟩

/-- AssembleEvidence stage for one ticker (§4.7): indicators, metrics,
sentiment, news, and the attribution recording which source served each data
type. -/
def evidenceOfBundle (now : String) (b : TickerBundle) : EvidencePacket :=
  ⟨b.ticker, computeIndicators b.market.payload, b.fundamentals.payload,
    b.news.payload.sentiment, now, b.news.payload.articles,
    ⟨b.market.source, some now, b.fundamentals.source, some now,
      b.news.source, some now⟩⟩

/-- Fetch stage of a run: one bundle per input ticker. -/
def runBundles (ps : Providers) (inp : RunInput) : List TickerBundle :=
  inp.tickers.map (fetchTicker ps)

/-- The fully assembled `RecommendationResult` of a (valid) run. -/
def runResult (ps : Providers) (inp : RunInput) : RecommendationResult :=
  ⟨inp.run_id, inp.user_id, inp.tickers, inp.horizon,
    buildScores ((runBundles ps inp).map scoreBundle),
    (runBundles ps inp).map (evidenceOfBundle inp.now), inp.now⟩

/-- Modelled from the spec (§4.7, §6): `run_recommendation`.  A validation
failure terminates the run before any fetch (zero provider calls, nothing
persisted); otherwise the full pipeline runs, the assembled result is saved
to the RunStore, and provider failures never surface (the error type admits
only `ValidationError`). -/
def runRecommendation (ps : Providers) (inp : RunInput) : RunOutcome :=
  match validate inp.tickers inp.horizon inp.plan_limits with
  | some e => ⟨Except.error e, 0, []⟩
  | none =>
    ⟨Except.ok (runResult ps inp),
      ((runBundles ps inp).map bundleCalls).sum, [runResult ps inp]⟩

/-- Whether an `Except` is a success. -/
def exceptOk : Except ε α → Bool
  | Except.ok _ => true
  | Except.error _ => false

/-- The evidence list of a run outcome (empty on a failed run). -/
def evidenceOf (o : RunOutcome) : List EvidencePacket :=
  match o.result with
  | Except.ok r => r.evidence
  | Except.error _ => []

/-! ## Helper lemmas -/

theorem attachRanks_length (f : ScoredTicker → ℕ → StockScore) :
    ∀ (k : ℕ) (l : List ScoredTicker), (attachRanks f k l).length = l.length := by
  intro k l
  induction l generalizing k with
  | nil => rfl
  | cons r rs ih => simp [attachRanks, ih]

theorem mem_attachRanks {f : ScoredTicker → ℕ → StockScore}
    {x : StockScore} :
    ∀ {k : ℕ} {l : List ScoredTicker}, x ∈ attachRanks f k l →
      ∃ r ∈ l, ∃ j, x = f r j := by
  intro k l
  induction l generalizing k with
  | nil => intro h; simp [attachRanks] at h
  | cons r rs ih =>
    intro h
    rcases List.mem_cons.mp h with h | h
    · exact ⟨r, List.mem_cons_self r rs, k, h⟩
    · obtain ⟨r', hr', j, hj⟩ := ih h
      exact ⟨r', List.mem_cons_of_mem r hr', j, hj⟩

theorem attachRanks_map_rank (total : ℚ) (n : ℕ) :
    ∀ (k : ℕ) (l : List ScoredTicker),
      (attachRanks (mkStockScore total n) k l).map (fun s => s.rank) =
        List.range' k l.length := by
  intro k l
  induction l generalizing k with
  | nil => rfl
  | cons r rs ih => simp [attachRanks, mkStockScore, List.range'_succ, ih]

theorem attachRanks_map_alloc (total : ℚ) (n : ℕ) :
    ∀ (k : ℕ) (l : List ScoredTicker),
      (attachRanks (mkStockScore total n) k l).map (fun s => s.allocation_pct) =
        l.map (allocOf total n) := by
  intro k l
  induction l generalizing k with
  | nil => rfl
  | cons r rs ih => simp [attachRanks, mkStockScore, ih]

theorem attachRanks_pairwise (R : ScoredTicker → ScoredTicker → Prop)
    (R' : StockScore → StockScore → Prop) (f : ScoredTicker → ℕ → StockScore)
    (hmono : ∀ a b i j, R a b → R' (f a i) (f b j)) :
    ∀ {k : ℕ} {l : List ScoredTicker}, List.Pairwise R l →
      List.Pairwise R' (attachRanks f k l) := by
  intro k l
  induction l generalizing k with
  | nil => intro _; exact List.Pairwise.nil
  | cons r rs ih =>
    intro h
    rcases List.pairwise_cons.mp h with ⟨hr, hrs⟩
    refine List.pairwise_cons.mpr ⟨?_, ih hrs⟩
    intro x hx
    obtain ⟨r', hr', j, hj⟩ := mem_attachRanks hx
    exact hj ▸ hmono r r' k j (hr r' hr')

theorem list_sum_map_const (l : List ScoredTicker) (c : ℚ) :
    (l.map (fun _ => c)).sum = (l.length : ℚ) * c := by
  induction l with
  | nil => simp
  | cons r rs ih => simp [ih]; ring

theorem list_sum_map_scale (l : List ScoredTicker) (T : ℚ) :
    (l.map (fun r => 100 * r.composite / T)).sum =
      100 * (l.map (fun r => r.composite)).sum / T := by
  induction l with
  | nil => simp
  | cons r rs ih => simp [ih]; ring

theorem sortRows_perm (rows : List ScoredTicker) : (sortRows rows).Perm rows :=
  List.perm_insertionSort rankLe rows

theorem totalComposite_sortRows (rows : List ScoredTicker) :
    totalComposite (sortRows rows) = totalComposite rows :=
  List.Perm.sum_eq ((sortRows_perm rows).map (fun r => r.composite))

theorem sortRows_length (rows : List ScoredTicker) :
    (sortRows rows).length = rows.length :=
  (sortRows_perm rows).length_eq

/-- Core allocator invariant: for a non-empty row list, the allocation
percentages of `buildScores` sum to exactly 100. -/
theorem buildScores_alloc_sum (rows : List ScoredTicker) (hne : rows ≠ []) :
    ((buildScores rows).map (fun s => s.allocation_pct)).sum = 100 := by
  have hlen0 : rows.length ≠ 0 := fun h => hne (List.length_eq_zero.mp h)
  have hslen : (sortRows rows).length = rows.length := sortRows_length rows
  unfold buildScores
  rw [attachRanks_map_alloc]
  by_cases hT : totalComposite (sortRows rows) = 0
  · have hmap : (sortRows rows).map (allocOf (totalComposite (sortRows rows))
        (sortRows rows).length) =
        (sortRows rows).map (fun _ => (100 : ℚ) / ((sortRows rows).length : ℚ)) := by
      apply List.map_congr_left
      intro r _
      simp [allocOf, hT]
    rw [hmap, list_sum_map_const]
    rw [hslen]
    have : ((rows.length : ℚ)) ≠ 0 := Nat.cast_ne_zero.mpr hlen0
    field_simp
  · have hmap : (sortRows rows).map (allocOf (totalComposite (sortRows rows))
        (sortRows rows).length) =
        (sortRows rows).map
          (fun r => 100 * r.composite / totalComposite (sortRows rows)) := by
      apply List.map_congr_left
      intro r _
      simp [allocOf, hT]
    rw [hmap, list_sum_map_scale]
    unfold totalComposite at hT ⊢
    field_simp

theorem validate_eq_none_iff (tickers : List String) (horizon : String)
    (pl : PlanLimits) :
    validate tickers horizon pl = none ↔
      tickers ≠ [] ∧ tickers.length ≤ pl.max_stocks ∧
        horizon ∈ pl.allowed_horizons ∧ tickers.all validTicker = true := by
  unfold validate
  split_ifs with h1 h2 h3 h4 <;> simp_all [List.isEmpty_iff]

theorem retryCall_error {α : Type} {f : String → Except ProviderError α}
    {t : String} (hf : ∃ e, f t = Except.error e) :
    ∀ n, ∃ e, (retryCall f t n).1 = Except.error e := by
  intro n
  induction n with
  | zero => exact hf
  | succ m ih =>
    obtain ⟨e, he⟩ := hf
    simp only [retryCall, he]
    exact ih

theorem gatewayFetch_mock {α : Type} (src : GatewaySource α) (t : String)
    (hf : ∃ e, src.realFetch t = Except.error e) :
    (gatewayFetch src t).source = src.mockName ∧
      (gatewayFetch src t).payload = src.mockFetch t := by
  obtain ⟨e, he⟩ := retryCall_error hf src.retries
  unfold gatewayFetch
  split
  · rename_i v c heq
    rw [heq] at he
    simp at he
  · exact ⟨rfl, rfl⟩

/-! ## Claim theorems -/

/-- C1: for every triple of sub-scores, each in [0,100], the Scoring Engine's
composite score equals `clamp(0.40·technical + 0.30·fundamental +
0.30·sentiment, 0, 100)` with exactly the weights 0.40/0.30/0.30; on that
domain the clamp is moreover the identity, so the composite is the plain
weighted sum. -/
theorem composite_formula_contract (t f s : ℚ)
    (ht : 0 ≤ t ∧ t ≤ 100) (hf : 0 ≤ f ∧ f ≤ 100) (hs : 0 ≤ s ∧ s ≤ 100) :
    compositeScore t f s = clampQ 0 100 (0.40 * t + 0.30 * f + 0.30 * s) ∧
    compositeScore t f s = 0.40 * t + 0.30 * f + 0.30 * s := by
  have hW : compositeScore t f s =
      clampQ 0 100 (0.40 * t + 0.30 * f + 0.30 * s) := rfl
  refine ⟨hW, hW.trans ?_⟩
  have h40 : (0.40 : ℚ) = 40 / 100 := by norm_num
  have h30 : (0.30 : ℚ) = 30 / 100 := by norm_num
  rw [h40, h30]
  apply clampQ_eq_self
  · have := ht.1; have := hf.1; have := hs.1; linarith
  · have := ht.2; have := hf.2; have := hs.2; linarith

/-- Witness for C1 at (technical, fundamental, sentiment) = (50, 60, 70). -/
theorem composite_formula_contract_check :
    compositeScore 50 60 70 = 0.40 * 50 + 0.30 * 60 + 0.30 * 70 :=
  (composite_formula_contract 50 60 70 (by norm_num) (by norm_num)
    (by norm_num)).2

/-- C7: for every price series, the RSI lies in [0,100]; it is 50 when the
series has fewer than `window + 1` points (no error is raised), and 100 when
there is enough history and the Wilder average loss over the window is 0. -/
theorem rsi_policy (closes : List ℚ) :
    (0 ≤ rsi closes ∧ rsi closes ≤ 100) ∧
    (closes.length < rsiWindow + 1 → rsi closes = 50) ∧
    (rsiWindow + 1 ≤ closes.length → avgLoss rsiWindow closes = 0 →
      rsi closes = 100) := by
  unfold rsi
  split_ifs with h1 h2
  · exact ⟨⟨by norm_num, by norm_num⟩, fun _ => rfl,
      fun h _ => absurd h (by omega)⟩
  · exact ⟨⟨by norm_num, by norm_num⟩, fun h => absurd h h1, fun _ _ => rfl⟩
  · exact ⟨⟨le_clampQ, clampQ_le (by norm_num)⟩, fun h => absurd h h1,
      fun _ h => absurd h h2⟩

/-- Witness for C7: a 3-point series yields the insufficient-history value
50; a strictly rising 15-point series has zero average loss and RSI 100, and
the bound holds there. -/
theorem rsi_policy_check :
    rsi [1, 2, 3] = 50 ∧
    rsi [1, 2, 3, 4, 5, 6, 7, 8, 9, 10, 11, 12, 13, 14, 15] = 100 ∧
    0 ≤ rsi [1, 2, 3, 4, 5, 6, 7, 8, 9, 10, 11, 12, 13, 14, 15] :=
  ⟨(rsi_policy [1, 2, 3]).2.1 (by decide),
   (rsi_policy _).2.2 (by decide)
     (by norm_num [avgLoss, wilderAvg, priceChanges, lossOf, rsiWindow]),
   (rsi_policy _).1.1⟩

/-- C3: for every non-empty row list with non-negative composite scores, the
Allocator assigns `100·score/Σscores` to each entry when some score is
nonzero (and the divisor is then nonzero), and the equal split `100/n` when
all scores are zero (and `n ≠ 0`), so it never divides by zero. -/
theorem allocation_policy (rows : List ScoredTicker) (hne : rows ≠ [])
    (hpos : ∀ r ∈ rows, 0 ≤ r.composite) :
    ((∃ r ∈ rows, r.composite ≠ 0) →
      totalComposite rows ≠ 0 ∧
        ∀ s ∈ buildScores rows,
          s.allocation_pct = 100 * s.composite_score / totalComposite rows) ∧
    ((∀ r ∈ rows, r.composite = 0) →
      rows.length ≠ 0 ∧
        ∀ s ∈ buildScores rows,
          s.allocation_pct = 100 / (rows.length : ℚ)) := by
  have hTs : totalComposite (sortRows rows) = totalComposite rows :=
    totalComposite_sortRows rows
  have hlen : (sortRows rows).length = rows.length := sortRows_length rows
  constructor
  · rintro ⟨r0, hr0, hr0ne⟩
    have hposall : ∀ x ∈ rows.map (fun r => r.composite), 0 ≤ x := by
      intro x hx
      obtain ⟨r, hr, rfl⟩ := List.mem_map.mp hx
      exact hpos r hr
    have hle : r0.composite ≤ totalComposite rows :=
      List.single_le_sum hposall _ (List.mem_map_of_mem _ hr0)
    have hT : totalComposite rows ≠ 0 :=
      ne_of_gt (lt_of_lt_of_le (lt_of_le_of_ne (hpos r0 hr0) (Ne.symm hr0ne)) hle)
    refine ⟨hT, ?_⟩
    intro s hs
    unfold buildScores at hs
    obtain ⟨rr, _, j, rfl⟩ := mem_attachRanks hs
    rw [hTs] at *
    simp [mkStockScore, allocOf, hT]
  · intro hz
    have hT0 : totalComposite rows = 0 := by
      apply List.sum_eq_zero
      intro x hx
      obtain ⟨r, hr, rfl⟩ := List.mem_map.mp hx
      exact hz r hr
    refine ⟨fun h => hne (List.length_eq_zero.mp h), ?_⟩
    intro s hs
    unfold buildScores at hs
    obtain ⟨rr, _, j, rfl⟩ := mem_attachRanks hs
    simp [mkStockScore, allocOf, hTs, hT0, hlen]

/-- Concrete rows for the allocator witnesses. -/
def demoRows : List ScoredTicker :=
  [⟨"AAPL", 60, 50, 70, 59⟩, ⟨"MSFT", 40, 50, 50, 46⟩]

/-- Witness for C3 on two concretely scored tickers with nonzero scores. -/
theorem allocation_policy_check :
    totalComposite demoRows ≠ 0 ∧
      ∀ s ∈ buildScores demoRows,
        s.allocation_pct = 100 * s.composite_score / totalComposite demoRows :=
  (allocation_policy demoRows (List.cons_ne_nil _ _)
      (by intro r hr; fin_cases hr <;> norm_num)).1
    ⟨⟨"AAPL", 60, 50, 70, 59⟩, by simp [demoRows], by norm_num⟩

/-- C2: for every run with at least one scored ticker (any run whose result
is returned successfully), the allocation percentages of its StockScore list
sum to exactly 100, hence in particular within the 0.1 tolerance. -/
theorem run_allocation_sum (ps : Providers) (inp : RunInput)
    (r : RecommendationResult)
    (hok : (runRecommendation ps inp).result = Except.ok r) :
    ((r.scores.map (fun s => s.allocation_pct)).sum = 100) ∧
    |(r.scores.map (fun s => s.allocation_pct)).sum - 100| ≤ 1 / 10 := by
  unfold runRecommendation at hok
  cases hv : validate inp.tickers inp.horizon inp.plan_limits with
  | some e => rw [hv] at hok; exact absurd hok (by simp)
  | none =>
    rw [hv] at hok
    simp only [Except.ok.injEq] at hok
    subst hok
    have hne : inp.tickers ≠ [] := ((validate_eq_none_iff _ _ _).mp hv).1
    have hrows : (runBundles ps inp).map scoreBundle ≠ [] := by
      simp only [runBundles, List.map_map, ne_eq, List.map_eq_nil_iff]
      exact hne
    have hsum := buildScores_alloc_sum _ hrows
    have hscores : (runResult ps inp).scores =
        buildScores ((runBundles ps inp).map scoreBundle) := rfl
    rw [hscores, hsum]
    norm_num

/-- Deterministic mock market data (fallback payload for the witnesses). -/
def mockSeries (t : String) : PriceSeries :=
  [⟨"2026-01-02", 100, 101, 99, 100 + (t.length : ℚ), 1000000⟩]

/-- A market-data gateway source whose real provider always fails. -/
def failingMarket : GatewaySource PriceSeries :=
  ⟨"polygon", fun t => Except.error ⟨"polygon", t, "timeout"⟩,
    "mock_market", mockSeries, 2⟩

/-- A fundamentals gateway source whose real provider always succeeds. -/
def okFundamentals : GatewaySource FundamentalMetrics :=
  ⟨"fmp", fun _ => Except.ok ⟨some 25, some (8 / 100), some (25 / 100),
      some (3 / 2), some 1000000⟩,
    "mock_fundamentals", fun _ => ⟨none, none, none, none, none⟩, 2⟩

/-- A news gateway source whose real provider always succeeds. -/
def okNews : GatewaySource NewsData :=
  ⟨"newsapi", fun _ => Except.ok ⟨[], ⟨7 / 10, 15, 10, 3, 2⟩⟩,
    "mock_news", fun _ => ⟨[], ⟨0, 0, 0, 0, 0⟩⟩, 2⟩

/-- Providers for the witnesses: failing market data, healthy others. -/
def demoProviders : Providers := ⟨failingMarket, okFundamentals, okNews⟩

/-- A valid one-ticker input. -/
def demoInput : RunInput :=
  ⟨"user-1", ["AAPL"], "1M", ⟨3, ["1M"]⟩, "run-1", "2026-01-01T00:00:00Z"⟩

/-- A valid two-ticker input with distinct tickers. -/
def demoInput2 : RunInput :=
  ⟨"user-1", ["AAPL", "MSFT"], "1M", ⟨3, ["1M"]⟩, "run-2", "2026-01-01T00:00:00Z"⟩

/-- An input exceeding the plan's stock limit (4 tickers, max 3). -/
def overLimitInput : RunInput :=
  ⟨"user-1", ["AAPL", "MSFT", "GOOG", "AMZN"], "1M", ⟨3, ["1M"]⟩, "run-3",
    "2026-01-01T00:00:00Z"⟩

/-- Witness for C2 on a concrete successful run. -/
theorem run_allocation_sum_check :
    (((runResult demoProviders demoInput).scores.map
        (fun s => s.allocation_pct)).sum = 100) ∧
    |((runResult demoProviders demoInput).scores.map
        (fun s => s.allocation_pct)).sum - 100| ≤ 1 / 10 :=
  run_allocation_sum demoProviders demoInput _ rfl

/-- C5: for every valid input, even when the market-data provider fails on
every call, `run_recommendation` still succeeds (it can only ever fail with a
`ValidationError`, so a `ProviderError` is never raised to the caller), and
every evidence packet's attribution names the mock market source. -/
theorem run_market_fallback (ps : Providers) (inp : RunInput)
    (hv : validate inp.tickers inp.horizon inp.plan_limits = none)
    (hfail : ∀ t, ∃ e, ps.market.realFetch t = Except.error e) :
    exceptOk (runRecommendation ps inp).result = true ∧
    ∀ ev ∈ evidenceOf (runRecommendation ps inp),
      ev.attribution.market_data_provider = ps.market.mockName := by
  have hrun : runRecommendation ps inp =
      ⟨Except.ok (runResult ps inp),
        ((runBundles ps inp).map bundleCalls).sum, [runResult ps inp]⟩ := by
    unfold runRecommendation
    rw [hv]
  rw [hrun]
  refine ⟨rfl, ?_⟩
  intro ev hev
  simp only [evidenceOf, runResult, runBundles, List.map_map] at hev
  obtain ⟨t, _, rfl⟩ := List.mem_map.mp hev
  show (gatewayFetch ps.market t).source = ps.market.mockName
  exact (gatewayFetch_mock ps.market t (hfail t)).1

/-- Witness for C5: a run against the always-failing market provider. -/
theorem run_market_fallback_check :
    exceptOk (runRecommendation demoProviders demoInput).result = true ∧
    ∀ ev ∈ evidenceOf (runRecommendation demoProviders demoInput),
      ev.attribution.market_data_provider = demoProviders.market.mockName :=
  run_market_fallback demoProviders demoInput (by decide)
    (fun t => ⟨⟨"polygon", t, "timeout"⟩, rfl⟩)

/-- C6: for every input violating a precondition (empty tickers, too many
tickers for the plan, or a horizon the plan does not allow), the run fails
with a validation error before any fetch: zero provider calls are made and
nothing is persisted to the RunStore. -/
theorem run_validation_no_fetch (ps : Providers) (inp : RunInput)
    (hbad : inp.tickers = [] ∨
      inp.plan_limits.max_stocks < inp.tickers.length ∨
      inp.horizon ∉ inp.plan_limits.allowed_horizons) :
    exceptOk (runRecommendation ps inp).result = false ∧
    (runRecommendation ps inp).providerCalls = 0 ∧
    (runRecommendation ps inp).savedRuns = [] := by
  have hv : validate inp.tickers inp.horizon inp.plan_limits ≠ none := by
    intro h
    rcases (validate_eq_none_iff _ _ _).mp h with ⟨h1, h2, h3, _⟩
    rcases hbad with hb | hb | hb
    · exact h1 hb
    · omega
    · exact hb h3
  cases hval : validate inp.tickers inp.horizon inp.plan_limits with
  | none => exact absurd hval hv
  | some e =>
    have hrun : runRecommendation ps inp = ⟨Except.error e, 0, []⟩ := by
      unfold runRecommendation
      rw [hval]
    rw [hrun]
    exact ⟨rfl, rfl, rfl⟩

/-- Witness for C6: 4 tickers against a plan maximum of 3. -/
theorem run_validation_no_fetch_check :
    exceptOk (runRecommendation demoProviders overLimitInput).result = false ∧
    (runRecommendation demoProviders overLimitInput).providerCalls = 0 ∧
    (runRecommendation demoProviders overLimitInput).savedRuns = [] :=
  run_validation_no_fetch demoProviders overLimitInput
    (Or.inr (Or.inl (by decide)))

/-- C4: for every run (with distinct input tickers), the StockScore list of
the result is sorted in descending order of composite score with ties broken
by ascending ticker, and the ranks down the list are exactly 1, 2, …, n, so
rank 1 is the highest composite score. -/
theorem run_ranking_order (ps : Providers) (inp : RunInput)
    (r : RecommendationResult)
    (hok : (runRecommendation ps inp).result = Except.ok r)
    (hnodup : inp.tickers.Nodup) :
    r.scores.map (fun s => s.rank) = List.range' 1 r.scores.length ∧
    List.Pairwise (fun a b : StockScore =>
      b.composite_score < a.composite_score ∨
        (a.composite_score = b.composite_score ∧ a.ticker < b.ticker))
      r.scores := by
  unfold runRecommendation at hok
  cases hv : validate inp.tickers inp.horizon inp.plan_limits with
  | some e => rw [hv] at hok; exact absurd hok (by simp)
  | none =>
    rw [hv] at hok
    simp only [Except.ok.injEq] at hok
    subst hok
    have hscores : (runResult ps inp).scores =
        buildScores ((runBundles ps inp).map scoreBundle) := rfl
    have htick : ((runBundles ps inp).map scoreBundle).map
        (fun row => row.ticker) = inp.tickers := by
      simp only [runBundles, List.map_map]
      exact List.map_id inp.tickers
    have hsorted : List.Pairwise rankLe
        (sortRows ((runBundles ps inp).map scoreBundle)) :=
      List.sorted_insertionSort rankLe _
    have hndsorted : List.Pairwise
        (fun a b : ScoredTicker => a.ticker ≠ b.ticker)
        (sortRows ((runBundles ps inp).map scoreBundle)) := by
      have h1 : (((runBundles ps inp).map scoreBundle).map
          (fun row => row.ticker)).Nodup := htick ▸ hnodup
      have h2 : ((sortRows ((runBundles ps inp).map scoreBundle)).map
          (fun row => row.ticker)).Nodup :=
        (((sortRows_perm _).map (fun row => row.ticker)).nodup_iff).mpr h1
      exact List.pairwise_map.mp h2
    have hstrict : List.Pairwise (fun a b : ScoredTicker =>
        b.composite < a.composite ∨
          (a.composite = b.composite ∧ a.ticker < b.ticker))
        (sortRows ((runBundles ps inp).map scoreBundle)) := by
      refine (hsorted.and hndsorted).imp ?_
      rintro a b ⟨hab, hne⟩
      rcases hab with h | ⟨he, ht⟩
      · exact Or.inl h
      · exact Or.inr ⟨he, lt_of_le_of_ne ht hne⟩
    constructor
    · rw [hscores]
      unfold buildScores
      rw [attachRanks_map_rank, attachRanks_length]
    · rw [hscores]
      unfold buildScores
      exact attachRanks_pairwise
        (fun a b : ScoredTicker =>
          b.composite < a.composite ∨
            (a.composite = b.composite ∧ a.ticker < b.ticker))
        (fun a b : StockScore =>
          b.composite_score < a.composite_score ∨
            (a.composite_score = b.composite_score ∧ a.ticker < b.ticker))
        (mkStockScore
          (totalComposite (sortRows ((runBundles ps inp).map scoreBundle)))
          (sortRows ((runBundles ps inp).map scoreBundle)).length)
        (fun a b i j h => h) hstrict

/-- Witness for C4 on a concrete two-ticker run. -/
theorem run_ranking_order_check :
    (runResult demoProviders demoInput2).scores.map (fun s => s.rank) =
      List.range' 1 (runResult demoProviders demoInput2).scores.length ∧
    List.Pairwise (fun a b : StockScore =>
      b.composite_score < a.composite_score ∨
        (a.composite_score = b.composite_score ∧ a.ticker < b.ticker))
      (runResult demoProviders demoInput2).scores :=
  run_ranking_order demoProviders demoInput2 _ rfl (by decide)

/-- C8: every element returned by `parseTickers` is a non-empty string of at
most 5 characters consisting only of uppercase letters A–Z, and
`handleSubmit` submits a request only when the parsed list is non-empty and
within the plan maximum (3 for free, 5 for pro). -/
theorem parse_and_submit_guard (input : String) (isPro : Bool) :
    (∀ t ∈ parseTickers input,
      0 < t.length ∧ t.length ≤ 5 ∧ ∀ c ∈ t.data, 'A' ≤ c ∧ c ≤ 'Z') ∧
    (∀ hz tok req, handleSubmit input isPro hz tok = some req →
      req.tickers = parseTickers input ∧
      0 < req.tickers.length ∧ req.tickers.length ≤ maxTickers isPro) ∧
    maxTickers false = 3 ∧ maxTickers true = 5 := by
  refine ⟨?_, ?_, rfl, rfl⟩
  · intro t ht
    rw [parseTickers, List.mem_filter] at ht
    obtain ⟨-, hp⟩ := ht
    simp only [upperAZTest, Bool.and_eq_true, decide_eq_true_eq,
      List.all_eq_true, Bool.not_eq_true'] at hp
    obtain ⟨⟨hl1, hl2⟩, -, hall⟩ := hp
    exact ⟨hl1, hl2, hall⟩
  · intro hz tok req hreq
    rw [handleSubmit] at hreq
    split_ifs at hreq with hcond
    · simp only [Option.some.injEq] at hreq
      subst hreq
      simp only [isValidInput, Bool.and_eq_true, decide_eq_true_eq] at hcond
      obtain ⟨⟨hc1, hc2⟩, -⟩ := hcond
      exact ⟨rfl, hc1, hc2⟩

/-- Witness for C8: parsing `"aapl, msft"` and submitting under the free
plan with a token present. -/
theorem parse_and_submit_guard_check :
    (0 < ("AAPL" : String).length ∧ ("AAPL" : String).length ≤ 5 ∧
      ∀ c ∈ ("AAPL" : String).data, 'A' ≤ c ∧ c ≤ 'Z') ∧
    ((⟨["AAPL", "MSFT"], "1M"⟩ : AnalyzeRequest).tickers =
        parseTickers "aapl, msft" ∧
      0 < (⟨["AAPL", "MSFT"], "1M"⟩ : AnalyzeRequest).tickers.length ∧
      (⟨["AAPL", "MSFT"], "1M"⟩ : AnalyzeRequest).tickers.length ≤
        maxTickers false) :=
  ⟨(parse_and_submit_guard "aapl, msft" false).1 "AAPL" (by decide),
   (parse_and_submit_guard "aapl, msft" false).2.1 "1M" (some "token") _
     (by decide)⟩

/-- The behaviour C9 claims of `apiRequest`, stated for refutation: the
parsed JSON body is returned exactly when `response.ok`, and otherwise an
`ApiError` is thrown whose message is the body's `detail` field whenever that
field is present. -/
def apiRequestClaimed (r : HttpResponse) : Prop :=
  ((∃ j, apiRequest r = Except.ok j) ↔ r.ok = true) ∧
  (r.ok = false → ∀ d, r.body.bind (fun b => b.detail) = some d →
    apiRequest r = Except.error (JsFail.api r.status d))

/-- Counterexample for C9: on a 400 response whose body is
`{"detail": ""}`, the `detail` field is present but falsy in JavaScript, so
the thrown `ApiError` carries the fallback message
`"Request failed with status 400"`, not the empty `detail`. -/
theorem apiRequest_claim_cex :
    ¬ apiRequestClaimed ⟨false, 400, some ⟨some ""⟩⟩ := by
  intro h
  have hmsg := h.2 rfl "" rfl
  rw [show apiRequest ⟨false, 400, some ⟨some ""⟩⟩ =
      Except.error (JsFail.api 400 "Request failed with status 400") from rfl]
    at hmsg
  simp only [Except.error.injEq, JsFail.api.injEq] at hmsg
  exact absurd hmsg.2 (by decide)

/-- C9 (amended): `apiRequest` returns the parsed JSON body exactly when
`response.ok` is true and the body parses; a non-ok response always throws an
`ApiError` whose status equals the response status and whose message is the
body's `detail` field when that field is present and non-empty (the fallback
message otherwise) — in particular a non-success response is never returned
as a success value. -/
theorem apiRequest_contract (r : HttpResponse) :
    (∀ j, apiRequest r = Except.ok j ↔ (r.ok = true ∧ r.body = some j)) ∧
    (r.ok = false →
      apiRequest r = Except.error (JsFail.api r.status (errorMessageOf r))) ∧
    (r.ok = false → ∀ d, r.body = some ⟨some d⟩ → d ≠ "" →
      apiRequest r = Except.error (JsFail.api r.status d)) := by
  refine ⟨?_, ?_, ?_⟩
  · intro j
    unfold apiRequest
    rcases r with ⟨ok, status, body⟩
    cases ok <;> cases body <;> simp
  · intro hok
    unfold apiRequest
    rw [hok]
    simp
  · intro hok d hbody hd
    unfold apiRequest
    rw [hok]
    simp only [Bool.false_eq_true, if_false, Except.error.injEq, JsFail.api.injEq,
      true_and]
    unfold errorMessageOf
    rw [hbody]
    simp [String.isEmpty_iff, hd]

/-- Witness for C9 (amended): a 404 response with a non-empty `detail`
yields an `ApiError` with exactly that message. -/
theorem apiRequest_contract_check :
    apiRequest ⟨false, 404, some ⟨some "Not found"⟩⟩ =
      Except.error (JsFail.api 404 "Not found") :=
  (apiRequest_contract ⟨false, 404, some ⟨some "Not found"⟩⟩).2.2 rfl
    "Not found" rfl (by decide)

/-- C10: for a non-pro session, the selected horizon is always `"1M"`: the
state is initialised to `"1M"`, every pro-only button is disabled and its
click handler leaves the state unchanged, so after any sequence of clicks on
the rendered horizon buttons the state — and hence the horizon of any
submitted analyze request — is `"1M"`. -/
theorem free_plan_horizon_locked (clicks : List HorizonOption)
    (hmem : ∀ c ∈ clicks, c ∈ HORIZONS) :
    horizonAfter false clicks = "1M" ∧
    initialHorizon = "1M" ∧
    (∀ h ∈ HORIZONS, h.value ≠ "1M" → horizonDisabled h false = true) ∧
    (∀ h ∈ HORIZONS, h.proOnly = true → ∀ cur, clickHorizon false cur h = cur) ∧
    (∀ input tok req,
      handleSubmit input false (horizonAfter false clicks) tok = some req →
        req.horizon = "1M") := by
  have hfold : ∀ (cs : List HorizonOption), (∀ c ∈ cs, c ∈ HORIZONS) →
      cs.foldl (clickHorizon false) "1M" = "1M" := by
    intro cs
    induction cs with
    | nil => intro _; rfl
    | cons c rest ih =>
      intro hcs
      have hc : c ∈ HORIZONS := hcs c (List.mem_cons_self c rest)
      have hstep : clickHorizon false "1M" c = "1M" := by
        simp only [HORIZONS, List.mem_cons, List.not_mem_nil, or_false] at hc
        rcases hc with rfl | rfl | rfl | rfl | rfl <;> rfl
      rw [List.foldl_cons, hstep]
      exact ih (fun c' hc' => hcs c' (List.mem_cons_of_mem c hc'))
  have hmain : horizonAfter false clicks = "1M" := hfold clicks hmem
  refine ⟨hmain, rfl, ?_, ?_, ?_⟩
  · intro h hh hne
    simp only [HORIZONS, List.mem_cons, List.not_mem_nil, or_false] at hh
    rcases hh with rfl | rfl | rfl | rfl | rfl
    · rfl
    · exact absurd rfl hne
    · rfl
    · rfl
    · rfl
  · intro h _ hpro cur
    simp [clickHorizon, horizonDisabled, hpro]
  · intro input tok req hreq
    rw [handleSubmit] at hreq
    split_ifs at hreq with hcond
    · simp only [Option.some.injEq] at hreq
      subst hreq
      exact hmain

/-- Witness for C10: clicking the pro-only 3M and 1W buttons in a free
session leaves the horizon at 1M. -/
theorem free_plan_horizon_locked_check :
    horizonAfter false
      [⟨"3M", "3 Months", true⟩, ⟨"1W", "1 Week", true⟩] = "1M" :=
  (free_plan_horizon_locked
    [⟨"3M", "3 Months", true⟩, ⟨"1W", "1 Week", true⟩] (by decide)).1

end AlphaLens
